import Mathlib

/-!
Verification development for the voxhook repository.

Shallow embedding of the decision core of the voxhook hook scripts:
message categorization (`common/utils.py`, `tts/handler.py`), awareness
classification (`common/awareness.py`), the WAV cache (`tts/cache_manager.py`),
the cross-process playback lock (`tts/audio_queue.py` together with
`play_sequence` in `tts/handler.py`), and the exit-code / routing behaviour of
the two handler `main` entry points.

Python strings are modelled by Lean `String`; `str.lower()` by a
per-character map; the substring operator `in` by an executable contiguous
occurrence check.  Python floats (timestamps, idle seconds) are modelled by
`ℚ`.  Fallible external queries are modelled by `Option` results; the
filesystem by an existence oracle `String → Bool`.
-/

/-- Model of Python `str.lower()`: per-character lowercase. -/
def strLower (s : String) : String := ⟨s.data.map Char.toLower⟩

/-- Helper for substring search: `pat` is an initial run of `hay`. -/
def leadsWith : List Char → List Char → Bool
  | [], _ => true
  | _ :: _, [] => false
  | a :: as, b :: bs => a == b && leadsWith as bs

/-- Helper for substring search: `pat` occurs contiguously in `hay`. -/
def occursIn (pat : List Char) : List Char → Bool
  | [] => leadsWith pat []
  | b :: t => leadsWith pat (b :: t) || occursIn pat t

/-- Model of the Python substring test `pat in hay`. -/
def strContains (hay pat : String) : Bool := occursIn pat.data hay.data

namespace Utils

/-- Modelled from the spec: the `NotificationCategory` enumeration
{PermissionRequest, IdleTimeout, Error, Warning, General} (spec §3), which the
code declares as `NotificationType` in `common/enums.py` (a file the sources
do not include); the five variant names are exactly the ones
`categorize_notification_message` in `common/utils.py` references. -/
inductive NotificationType
  | PERMISSION_REQUEST
  | IDLE_TIMEOUT
  | ERROR
  | WARNING
  | GENERAL
deriving DecidableEq, Repr

/-- Embeds `categorize_notification_message` (src/hooks/common/utils.py,
lines 166–185): ordered substring rules over the lowercased message, with an
empty message mapped to GENERAL up front. -/
def categorize_notification_message (message : String) : NotificationType :=
  if message = "" then .GENERAL
  else
    let message_lower := strLower message
    if strContains message_lower "permission" && strContains message_lower "use" then
      .PERMISSION_REQUEST
    else if strContains message_lower "waiting for your input"
        || strContains message_lower "waiting for input" then
      .IDLE_TIMEOUT
    else if strContains message_lower "error" || strContains message_lower "failed"
        || strContains message_lower "exception" || strContains message_lower "critical" then
      .ERROR
    else if strContains message_lower "warning" || strContains message_lower "warn"
        || strContains message_lower "caution" then
      .WARNING
    else
      .GENERAL

end Utils

namespace TtsHandler

/-- Embeds `categorize_notification` (src/hooks/tts/handler.py, lines 72–85):
the TTS handler's own copy of the categorizer, returning the template
sub-type as a string. -/
def categorize_notification (message : String) : String :=
  if message = "" then "general"
  else
    let lower := strLower message
    if strContains lower "permission" && strContains lower "use" then
      "permission_request"
    else if strContains lower "waiting for your input"
        || strContains lower "waiting for input" then
      "idle_timeout"
    else if strContains lower "error" || strContains lower "failed"
        || strContains lower "exception" || strContains lower "critical" then
      "error"
    else if strContains lower "warning" || strContains lower "warn"
        || strContains lower "caution" then
      "warning"
    else
      "general"

end TtsHandler

/-- Refinement map stated by claim C10: the category string of the TTS
handler that corresponds to each `NotificationType` variant of the common
utilities. -/
def categoryLabel : Utils.NotificationType → String
  | .PERMISSION_REQUEST => "permission_request"
  | .IDLE_TIMEOUT => "idle_timeout"
  | .ERROR => "error"
  | .WARNING => "warning"
  | .GENERAL => "general"

namespace Awareness

/-- Embeds the `AwarenessTier` StrEnum (src/hooks/common/awareness.py,
lines 21–24). -/
inductive AwarenessTier
  | FOCUSED
  | NEARBY
  | AWAY
deriving DecidableEq, Repr, Fintype

/-- Effective awareness configuration: the values the three
`awareness_cfg.get(...)` calls of `detect_awareness` produce, with the
defaults already applied (`enabled` defaults to False, `terminal_apps` to
`_DEFAULT_TERMINAL_APPS`, `idle_threshold_seconds` to 300). -/
structure AwarenessConfig where
  enabled : Bool
  terminal_apps : List String
  idle_threshold_seconds : ℚ

/-- Outcomes of the three external OS queries of awareness.py: `none` models
a failed query (timeout, OS error, empty output).  The front-window title is
a function of the process name the query is issued for, mirroring
`_get_front_window_title(process_name)`. -/
structure OSState where
  frontmost_app : Option String
  front_window_title : String → Option String
  idle_seconds : Option ℚ

/-- Embeds `detect_awareness` (src/hooks/common/awareness.py, lines 85–120):
disabled detection or a failed frontmost-app query gives `none`; a
terminal-like frontmost app is classified FOCUSED/NEARBY via the front
window title; otherwise the idle-time query decides AWAY/NEARBY, with a
failed idle query giving `none`. -/
def detect_awareness (config : AwarenessConfig) (os : OSState)
    (project_name : String) : Option AwarenessTier :=
  if !config.enabled then none
  else
    let terminal_apps := config.terminal_apps.map strLower
    match os.frontmost_app with
    | none => none
    | some frontmost =>
      if terminal_apps.contains (strLower frontmost) then
        if project_name = "" then some .FOCUSED
        else
          match os.front_window_title frontmost with
          | some title =>
            if title != "" && strContains (strLower title) (strLower project_name) then
              some .FOCUSED
            else
              some .NEARBY
          | none => some .NEARBY
      else
        match os.idle_seconds with
        | none => none
        | some idle =>
          if idle > config.idle_threshold_seconds then some .AWAY
          else some .NEARBY

end Awareness

namespace TtsHandler

/-- Embeds `should_tts` (src/hooks/tts/handler.py, line 261):
`tier is None or tier == AwarenessTier.NEARBY`. -/
def should_tts (tier : Option Awareness.AwarenessTier) : Bool :=
  tier.isNone || tier == some .NEARBY

/-- Embeds `should_push` (src/hooks/tts/handler.py, line 262):
`tier is None or tier == AwarenessTier.AWAY`. -/
def should_push (tier : Option Awareness.AwarenessTier) : Bool :=
  tier.isNone || tier == some .AWAY

end TtsHandler

namespace CacheManager

/-- One value of the `entries` table of the cache index
(src/hooks/tts/cache_manager.py): the JSON object stored per text hash. -/
structure CacheEntry where
  path : String
  text : String
  created : ℚ
  last_access : ℚ
deriving DecidableEq, Repr

/-- The `entries` table of the cache index: an association list keyed by the
text hash, kept in insertion order exactly as a Python dict is. -/
abbrev Index := List (String × CacheEntry)

/-- Filesystem oracle: whether a path currently exists (`Path.exists()`). -/
abbrev FileSys := String → Bool

/-- Embeds `lookup` (src/hooks/tts/cache_manager.py, lines 33–54).  The
result is the returned value together with the index as rewritten by
`_save_index`: a missing key leaves the index untouched and returns `none`; a
key whose backing file is gone is deleted (stale-entry self-heal) and the
call returns `none`; otherwise `last_access` is refreshed to `now` and the
path returned. -/
def lookup (index : Index) (fs : FileSys) (now : ℚ) (text_hash : String) :
    Option String × Index :=
  match List.lookup text_hash index with
  | none => (none, index)
  | some entry =>
    if !(fs entry.path) then
      (none, index.eraseP (fun p => p.1 == text_hash))
    else
      (some entry.path,
       index.map (fun p =>
         if p.1 == text_hash then (p.1, { p.2 with last_access := now }) else p))

/-- Python dict assignment `index["entries"][text_hash] = {...}`: overwrite
in place when the key exists, otherwise append at the end. -/
def insertEntry (index : Index) (text_hash : String) (e : CacheEntry) : Index :=
  if (List.lookup text_hash index).isSome then
    index.map (fun p => if p.1 == text_hash then (text_hash, e) else p)
  else
    index ++ [(text_hash, e)]

/-- The sort key of `_evict`: `entries[k].get("last_access", 0)`. -/
def keyAccess (index : Index) (k : String) : ℚ :=
  match List.lookup k index with
  | some e => e.last_access
  | none => 0

/-- The keys `_evict` removes: `sorted(entries, key=last_access)[:to_remove]`
with `to_remove = len(entries) - max_entries`. -/
def evictVictims (index : Index) (max_entries : Nat) : List String :=
  let sorted_keys :=
    (index.map Prod.fst).mergeSort (fun a b => decide (keyAccess index a ≤ keyAccess index b))
  sorted_keys.take (index.length - max_entries)

/-- The index surviving `_evict` (src/hooks/tts/cache_manager.py, lines
82–93): every victim key is popped from the table. -/
def evictIndex (index : Index) (max_entries : Nat) : Index :=
  index.filter (fun p => !((evictVictims index max_entries).contains p.1))

/-- Embeds `_evict` in full: the surviving index together with the list of
backing files actually unlinked.  `unlink_fails` says which `unlink` calls
raise OSError; the exception is swallowed (`except OSError: pass`) and the
entry was already popped, so the surviving index never depends on it. -/
def evict (index : Index) (max_entries : Nat) (unlink_fails : String → Bool) :
    Index × List String :=
  let victims := evictVictims index max_entries
  let deleted :=
    (victims.filterMap (fun k => (List.lookup k index).map CacheEntry.path)).filter
      (fun p => !unlink_fails p)
  (evictIndex index max_entries, deleted)

/-- Embeds `store` (src/hooks/tts/cache_manager.py, lines 57–79): insert or
overwrite the entry with `created = last_access = now`, then evict when the
table exceeds `max_entries`. -/
def store (index : Index) (now : ℚ) (text_hash text audio_path : String)
    (max_entries : Nat) : Index :=
  let index1 := insertEntry index text_hash ⟨audio_path, text, now, now⟩
  if index1.length > max_entries then evictIndex index1 max_entries else index1

/-- One call to `store` made by a test scenario: hash, source text, artifact
path, and the `time.time()` value at the call. -/
structure StoreCall where
  text_hash : String
  text : String
  audio_path : String
  now : ℚ

/-- The index entry that storing `c` writes. -/
def entryOf (c : StoreCall) : String × CacheEntry :=
  (c.text_hash, ⟨c.audio_path, c.text, c.now, c.now⟩)

/-- Folding `store` over a list of calls, starting from an empty index. -/
def storeAll (calls : List StoreCall) (max_entries : Nat) : Index :=
  calls.foldl
    (fun idx c => store idx c.now c.text_hash c.text c.audio_path max_entries) []

end CacheManager

namespace AudioQueue

/-- Phase of one invocation running `play_sequence` (src/hooks/tts/handler.py,
lines 98–113): before `audio_lock()` is entered, inside the `with` block with
the files still to play, or after the lock is released. -/
inductive ProcPhase
  | waiting
  | playing (rest : List String)
  | finished
deriving DecidableEq, Repr

/-- Global state of two concurrent hook invocations sharing the
`/tmp/voxhook_audio.lock` flock of src/hooks/tts/audio_queue.py.  `false`
names the first invocation and `true` the second; `trace` records, in order,
each completed `afplay` run as (invocation, file). -/
structure SysState where
  phase1 : ProcPhase
  phase2 : ProcPhase
  lock_holder : Option Bool
  trace : List (Bool × String)
deriving DecidableEq, Repr

/-- Interleaving semantics of two concurrent `play_sequence(seq1)` /
`play_sequence(seq2)` invocations.  `fcntl.flock(LOCK_EX)` blocks until the
lock is free, so an acquire step fires only when `lock_holder = none`; each
`afplay` run is one atomic step by the invocation inside its `with
audio_lock()` block; releasing requires the sequence to be exhausted, since
the lock is held for the whole `for wav_path in wav_paths` loop. -/
inductive Step (seq1 seq2 : List String) : SysState → SysState → Prop
  | acquire1 (s : SysState) (h : s.phase1 = .waiting) (hl : s.lock_holder = none) :
      Step seq1 seq2 s { s with phase1 := .playing seq1, lock_holder := some false }
  | play1 (s : SysState) (f : String) (rest : List String)
      (h : s.phase1 = .playing (f :: rest)) :
      Step seq1 seq2 s { s with phase1 := .playing rest, trace := s.trace ++ [(false, f)] }
  | release1 (s : SysState) (h : s.phase1 = .playing []) :
      Step seq1 seq2 s { s with phase1 := .finished, lock_holder := none }
  | acquire2 (s : SysState) (h : s.phase2 = .waiting) (hl : s.lock_holder = none) :
      Step seq1 seq2 s { s with phase2 := .playing seq2, lock_holder := some true }
  | play2 (s : SysState) (f : String) (rest : List String)
      (h : s.phase2 = .playing (f :: rest)) :
      Step seq1 seq2 s { s with phase2 := .playing rest, trace := s.trace ++ [(true, f)] }
  | release2 (s : SysState) (h : s.phase2 = .playing []) :
      Step seq1 seq2 s { s with phase2 := .finished, lock_holder := none }

/-- Initial state: both invocations have been launched but neither has
entered the lock; nothing has played. -/
def init : SysState := ⟨.waiting, .waiting, none, []⟩

/-- States reachable by any interleaving of the two invocations. -/
def Reachable (seq1 seq2 : List String) (s : SysState) : Prop :=
  Relation.ReflTransGen (Step seq1 seq2) init s

/-- Tags every file of a sequence with the invocation that plays it. -/
def tag (i : Bool) (l : List String) : List (Bool × String) :=
  l.map (fun f => (i, f))

/-- Whether a phase is inside the `with audio_lock()` block. -/
def ProcPhase.isPlaying : ProcPhase → Bool
  | .playing _ => true
  | _ => false

/-- Inductive invariant of the two-invocation playback system: the lock is
held exactly by the invocation inside its `with` block, and the trace is
always a prefix-closed concatenation of whole per-invocation blocks — the
partial block of the lock holder, if any, comes last. -/
def Inv (seq1 seq2 : List String) (s : SysState) : Prop :=
  match s.phase1, s.phase2 with
  | .waiting, .waiting => s.lock_holder = none ∧ s.trace = []
  | .playing r1, .waiting =>
      s.lock_holder = some false ∧ ∃ p, seq1 = p ++ r1 ∧ s.trace = tag false p
  | .finished, .waiting => s.lock_holder = none ∧ s.trace = tag false seq1
  | .waiting, .playing r2 =>
      s.lock_holder = some true ∧ ∃ p, seq2 = p ++ r2 ∧ s.trace = tag true p
  | .waiting, .finished => s.lock_holder = none ∧ s.trace = tag true seq2
  | .playing _, .playing _ => False
  | .playing r1, .finished =>
      s.lock_holder = some false ∧
        ∃ p, seq1 = p ++ r1 ∧ s.trace = tag true seq2 ++ tag false p
  | .finished, .playing r2 =>
      s.lock_holder = some true ∧
        ∃ p, seq2 = p ++ r2 ∧ s.trace = tag false seq1 ++ tag true p
  | .finished, .finished =>
      s.lock_holder = none ∧
        (s.trace = tag false seq1 ++ tag true seq2 ∨
         s.trace = tag true seq2 ++ tag false seq1)

end AudioQueue

namespace NotifyHandler

/-- A resolved notification: the title/message pair every cascade result is
normalized to. -/
structure TitleMessage where
  title : String
  message : String
deriving DecidableEq, Repr

/-- JSON-ish configuration value as notification_mapping.json holds them: a
plain string, a list of variations, or an object carrying a title/message
pair. -/
inductive ConfigVal
  | str (s : String)
  | strs (l : List String)
  | pair (t m : String)
deriving DecidableEq, Repr

/-- Embeds `_select_variation` (src/hooks/notify/handler.py, lines 260–268);
`pick` models the index `random.choice` draws for a list value. -/
def select_variation (v : ConfigVal) (pick : Nat) : ConfigVal :=
  match v with
  | .str s => .str s
  | .pair t m => .pair t m
  | .strs l =>
    if l = [] then .str "Task completed"
    else .str (l.getD (pick % l.length) "Task completed")

/-- Embeds `_ensure_notification_format` (src/hooks/notify/handler.py, lines
270–277): an object passes through, a string becomes the message under the
"Claude Code" title, anything else degrades to the fixed default pair. -/
def ensure_notification_format : ConfigVal → TitleMessage
  | .pair t m => ⟨t, m⟩
  | .str s => ⟨"Claude Code", s⟩
  | .strs _ => ⟨"Claude Code", "Task completed"⟩

/-- Modelled from the spec: the `HookEvent` enumeration of `common/enums.py`
(a file the sources do not include).  Its members cover the spec §3 event
kinds and the event names exercised by src/hooks/notify/test.py, each with
its Claude Code wire value. -/
inductive HookEvent
  | STOP
  | SUBAGENT_STOP
  | NOTIFICATION
  | PRE_TOOL_USE
  | POST_TOOL_USE
deriving DecidableEq, Repr

/-- Wire value of each hook event (the `.value` of the Python StrEnum). -/
def HookEvent.value : HookEvent → String
  | .STOP => "Stop"
  | .SUBAGENT_STOP => "SubagentStop"
  | .NOTIFICATION => "Notification"
  | .PRE_TOOL_USE => "PreToolUse"
  | .POST_TOOL_USE => "PostToolUse"

/-- Iteration order of the HookEvent members, for the case-insensitive
fallback scan of `safe_enum_from_string`. -/
def hookEventMembers : List HookEvent :=
  [.STOP, .SUBAGENT_STOP, .NOTIFICATION, .PRE_TOOL_USE, .POST_TOOL_USE]

/-- Embeds `safe_enum_from_string(HookEvent, value)` (src/hooks/common/
utils.py, lines 35–67) with its default fallback `None`: falsy or missing
input gives the fallback, then exact value match, then a case-insensitive
scan of the members, then the fallback. -/
def safe_hook_event_from_string (value : Option String) : Option HookEvent :=
  match value with
  | none => none
  | some v =>
    if v = "" then none
    else
      match hookEventMembers.find? (fun e => e.value == v) with
      | some e => some e
      | none => hookEventMembers.find? (fun e => strLower e.value == strLower v)

/-- Embeds the `notification_data` selection of notify `main`
(src/hooks/notify/handler.py, lines 384–388): a resolvable event kind is
routed through `get_context_aware_notification` (abstracted here as
`cascade_result`, which an unknown kind never reaches); an unresolvable kind
short-circuits to the hardcoded fallback pair without consulting the loaded
mapping document at all. -/
def main_notification_data (hook_event : Option HookEvent)
    (cascade_result : HookEvent → TitleMessage) : TitleMessage :=
  match hook_event with
  | some ev => cascade_result ev
  | none => ⟨"Claude Code", "Task completed"⟩

/-- Which of the three `except` paths of notify `main` an invocation takes
while reading and routing its input (src/hooks/notify/handler.py, lines
350–434): the body runs to the send, or json.load raises JSONDecodeError, or
some other exception is caught. -/
inductive ParseOutcome
  | ok
  | jsonError
  | otherError
deriving DecidableEq, Repr

/-- Exit code of notify `main` (src/hooks/notify/handler.py, lines 328–435)
as a function of the path taken and of whether `send_push_notification`
returned True: every path sends a notification and runs
`if not success: sys.exit(1)`, falling through to `sys.exit(0)`. -/
def main_exit_code (parse : ParseOutcome) (send_success : Bool) : Nat :=
  match parse with
  | .ok => if send_success then 0 else 1
  | .jsonError => if send_success then 0 else 1
  | .otherError => if send_success then 0 else 1

end NotifyHandler

namespace TtsHandler

/-- The branch conditions met by one invocation of the TTS handler `main`
(src/hooks/tts/handler.py, lines 201–328); `stdin_parses` is False when
`json.load(sys.stdin)` raises and the handler continues with `{}`. -/
structure MainInput where
  mute_file_exists : Bool
  enabled : Bool
  stdin_parses : Bool
  suppress_marker_exists : Bool
  delegate_session : Bool
  idle_notification : Bool
  idle_on_cooldown : Bool
deriving DecidableEq, Repr

/-- Exit code of the TTS handler `main`: each `sys.exit` call of
src/hooks/tts/handler.py (lines 208, 213, 226, 233, 256, 328) in branch
order; an unparseable stdin is swallowed (lines 216–219) and the run
continues to the final `sys.exit(0)`. -/
def main_exit_code (inp : MainInput) : Nat :=
  if inp.mute_file_exists then 0
  else if !inp.enabled then 0
  else if inp.suppress_marker_exists then 0
  else if inp.delegate_session then 0
  else if inp.idle_notification && inp.idle_on_cooldown then 0
  else if !inp.stdin_parses then 0
  else 0

end TtsHandler

theorem categorize_message_eq (m : String) :
    Utils.categorize_notification_message m =
      (if strContains (strLower m) "permission" && strContains (strLower m) "use" then
        .PERMISSION_REQUEST
      else if strContains (strLower m) "waiting for your input"
          || strContains (strLower m) "waiting for input" then
        .IDLE_TIMEOUT
      else if strContains (strLower m) "error" || strContains (strLower m) "failed"
          || strContains (strLower m) "exception" || strContains (strLower m) "critical" then
        .ERROR
      else if strContains (strLower m) "warning" || strContains (strLower m) "warn"
          || strContains (strLower m) "caution" then
        .WARNING
      else
        .GENERAL) := by
  by_cases hm : m = ""
  · subst hm; decide
  · simp [Utils.categorize_notification_message, hm]

theorem categorize_tts_eq (m : String) :
    TtsHandler.categorize_notification m =
      (if strContains (strLower m) "permission" && strContains (strLower m) "use" then
        "permission_request"
      else if strContains (strLower m) "waiting for your input"
          || strContains (strLower m) "waiting for input" then
        "idle_timeout"
      else if strContains (strLower m) "error" || strContains (strLower m) "failed"
          || strContains (strLower m) "exception" || strContains (strLower m) "critical" then
        "error"
      else if strContains (strLower m) "warning" || strContains (strLower m) "warn"
          || strContains (strLower m) "caution" then
        "warning"
      else
        "general") := by
  by_cases hm : m = ""
  · subst hm; decide
  · simp [TtsHandler.categorize_notification, hm]

/-- C7: categorization is a total function applying ordered rules —
PermissionRequest iff the lowercased message contains both "permission" and
"use"; otherwise IdleTimeout iff it contains "waiting for your input" or
"waiting for input"; otherwise Error iff it contains an error keyword;
otherwise Warning iff it contains a warning keyword; otherwise General — and
in particular "Claude Code is requesting permission to use the Bash tool"
maps to PermissionRequest and "General system notification" maps to
General. -/
theorem C7_categorize_ordered_rules (m : String) :
    (Utils.categorize_notification_message m = .PERMISSION_REQUEST ↔
      (strContains (strLower m) "permission" && strContains (strLower m) "use") = true)
  ∧ (Utils.categorize_notification_message m = .IDLE_TIMEOUT ↔
      (strContains (strLower m) "permission" && strContains (strLower m) "use") = false
    ∧ (strContains (strLower m) "waiting for your input"
        || strContains (strLower m) "waiting for input") = true)
  ∧ (Utils.categorize_notification_message m = .ERROR ↔
      (strContains (strLower m) "permission" && strContains (strLower m) "use") = false
    ∧ (strContains (strLower m) "waiting for your input"
        || strContains (strLower m) "waiting for input") = false
    ∧ (strContains (strLower m) "error" || strContains (strLower m) "failed"
        || strContains (strLower m) "exception" || strContains (strLower m) "critical") = true)
  ∧ (Utils.categorize_notification_message m = .WARNING ↔
      (strContains (strLower m) "permission" && strContains (strLower m) "use") = false
    ∧ (strContains (strLower m) "waiting for your input"
        || strContains (strLower m) "waiting for input") = false
    ∧ (strContains (strLower m) "error" || strContains (strLower m) "failed"
        || strContains (strLower m) "exception" || strContains (strLower m) "critical") = false
    ∧ (strContains (strLower m) "warning" || strContains (strLower m) "warn"
        || strContains (strLower m) "caution") = true)
  ∧ (Utils.categorize_notification_message m = .GENERAL ↔
      (strContains (strLower m) "permission" && strContains (strLower m) "use") = false
    ∧ (strContains (strLower m) "waiting for your input"
        || strContains (strLower m) "waiting for input") = false
    ∧ (strContains (strLower m) "error" || strContains (strLower m) "failed"
        || strContains (strLower m) "exception" || strContains (strLower m) "critical") = false
    ∧ (strContains (strLower m) "warning" || strContains (strLower m) "warn"
        || strContains (strLower m) "caution") = false)
  ∧ Utils.categorize_notification_message
      "Claude Code is requesting permission to use the Bash tool" = .PERMISSION_REQUEST
  ∧ Utils.categorize_notification_message "General system notification" = .GENERAL := by
  have hc := categorize_message_eq m
  refine ⟨?_, ?_, ?_, ?_, ?_, by decide, by decide⟩
  all_goals
    rw [hc]
    rcases Bool.eq_false_or_eq_true
      (strContains (strLower m) "permission" && strContains (strLower m) "use") with hp | hp <;>
    rcases Bool.eq_false_or_eq_true
      (strContains (strLower m) "waiting for your input"
        || strContains (strLower m) "waiting for input") with hi | hi <;>
    rcases Bool.eq_false_or_eq_true
      (strContains (strLower m) "error" || strContains (strLower m) "failed"
        || strContains (strLower m) "exception" || strContains (strLower m) "critical") with he | he <;>
    rcases Bool.eq_false_or_eq_true
      (strContains (strLower m) "warning" || strContains (strLower m) "warn"
        || strContains (strLower m) "caution") with hw | hw <;>
    simp [hp, hi, he, hw]

/-- C10: the TTS handler's `categorize_notification` and the common
`categorize_notification_message` assign every message the same one of the
five categories, under the canonical variant-to-string correspondence. -/
theorem C10_categorizers_agree (m : String) :
    TtsHandler.categorize_notification m
      = categoryLabel (Utils.categorize_notification_message m) := by
  rw [categorize_tts_eq m, categorize_message_eq m]
  rcases Bool.eq_false_or_eq_true
    (strContains (strLower m) "permission" && strContains (strLower m) "use") with hp | hp <;>
  rcases Bool.eq_false_or_eq_true
    (strContains (strLower m) "waiting for your input"
      || strContains (strLower m) "waiting for input") with hi | hi <;>
  rcases Bool.eq_false_or_eq_true
    (strContains (strLower m) "error" || strContains (strLower m) "failed"
      || strContains (strLower m) "exception" || strContains (strLower m) "critical") with he | he <;>
  rcases Bool.eq_false_or_eq_true
    (strContains (strLower m) "warning" || strContains (strLower m) "warn"
      || strContains (strLower m) "caution") with hw | hw <;>
  simp [hp, hi, he, hw, categoryLabel]

/-- C4: `should_tts` holds iff the tier is unknown or NEARBY, and
`should_push` holds iff the tier is unknown or AWAY; FOCUSED suppresses both
channels and an unknown tier enables both. -/
theorem C4_tier_gating :
    ∀ tier : Option Awareness.AwarenessTier,
      (TtsHandler.should_tts tier = true ↔ tier = none ∨ tier = some .NEARBY)
    ∧ (TtsHandler.should_push tier = true ↔ tier = none ∨ tier = some .AWAY)
    ∧ (TtsHandler.should_tts (some .FOCUSED) = false
        ∧ TtsHandler.should_push (some .FOCUSED) = false)
    ∧ (TtsHandler.should_tts none = true ∧ TtsHandler.should_push none = true) := by
  decide

/-- C2, counterexample: with awareness enabled, a terminal-like frontmost
app, a non-empty project name and a FAILED front-window-title query,
`detect_awareness` returns the NEARBY tier — not `unknown` — so not every
external query failure degrades to `unknown`. -/
theorem C2_counterexample :
    Awareness.detect_awareness ⟨true, ["Terminal"], 300⟩
        ⟨some "Terminal", fun _ => none, some 0⟩ "voxhook" = some .NEARBY
  ∧ Awareness.detect_awareness ⟨true, ["Terminal"], 300⟩
        ⟨some "Terminal", fun _ => none, some 0⟩ "voxhook" ≠ none := by
  constructor
  · decide
  · decide

/-- C2, amended: a failed frontmost-application query and a failed idle-time
query each make `detect_awareness` return `unknown` (None); a failed
front-window-title query, reached with a terminal-like frontmost app and a
non-empty project name, instead yields NEARBY (never FOCUSED or AWAY). -/
theorem C2_amended (config : Awareness.AwarenessConfig) (os : Awareness.OSState)
    (project_name fm : String) (hen : config.enabled = true) :
    (os.frontmost_app = none →
      Awareness.detect_awareness config os project_name = none)
  ∧ (os.frontmost_app = some fm →
      (config.terminal_apps.map strLower).contains (strLower fm) = false →
      os.idle_seconds = none →
      Awareness.detect_awareness config os project_name = none)
  ∧ (os.frontmost_app = some fm →
      (config.terminal_apps.map strLower).contains (strLower fm) = true →
      project_name ≠ "" →
      os.front_window_title fm = none →
      Awareness.detect_awareness config os project_name = some .NEARBY) := by
  refine ⟨fun h1 => ?_, fun h1 h2 h3 => ?_, fun h1 h2 h3 h4 => ?_⟩
  · simp only [Awareness.detect_awareness, hen, h1, Bool.not_true, Bool.false_eq_true, if_false]
  · simp only [Awareness.detect_awareness, hen, h1, h2, h3, Bool.not_true,
      Bool.false_eq_true, if_false]
  · simp only [Awareness.detect_awareness, hen, h1, h2, h3, h4, Bool.not_true,
      Bool.false_eq_true, if_false, if_true]

/-- C2 amended, witness at concrete inputs: a failed frontmost query, a
failed idle query behind a non-terminal app, and a failed window-title query
behind a terminal app. -/
theorem C2_amended_witness :
    Awareness.detect_awareness ⟨true, ["Terminal"], 300⟩
        ⟨none, fun _ => none, some 0⟩ "voxhook" = none
  ∧ Awareness.detect_awareness ⟨true, ["Terminal"], 300⟩
        ⟨some "Safari", fun _ => none, none⟩ "voxhook" = none
  ∧ Awareness.detect_awareness ⟨true, ["Terminal"], 300⟩
        ⟨some "Terminal", fun _ => none, some 0⟩ "voxhook" = some .NEARBY := by
  refine ⟨?_, ?_, ?_⟩
  · exact (C2_amended ⟨true, ["Terminal"], 300⟩ ⟨none, fun _ => none, some 0⟩
      "voxhook" "Terminal" rfl).1 rfl
  · exact (C2_amended ⟨true, ["Terminal"], 300⟩ ⟨some "Safari", fun _ => none, none⟩
      "voxhook" "Safari" rfl).2.1 rfl (by decide) rfl
  · exact (C2_amended ⟨true, ["Terminal"], 300⟩ ⟨some "Terminal", fun _ => none, some 0⟩
      "voxhook" "Terminal" rfl).2.2 rfl (by decide) (by decide) rfl

/-- C9: with awareness enabled, a successfully queried non-terminal
frontmost app and a successful idle-time query, an idle time exactly equal
to the threshold yields NEARBY and an idle time one unit above it yields
AWAY. -/
theorem C9_idle_boundary (config : Awareness.AwarenessConfig)
    (os1 os2 : Awareness.OSState) (project_name fm : String) (T : ℚ)
    (hen : config.enabled = true)
    (hthr : config.idle_threshold_seconds = T)
    (h1 : os1.frontmost_app = some fm)
    (h2 : os2.frontmost_app = some fm)
    (hnt : (config.terminal_apps.map strLower).contains (strLower fm) = false)
    (hi1 : os1.idle_seconds = some T)
    (hi2 : os2.idle_seconds = some (T + 1)) :
    Awareness.detect_awareness config os1 project_name = some .NEARBY
  ∧ Awareness.detect_awareness config os2 project_name = some .AWAY := by
  constructor
  · simp only [Awareness.detect_awareness, hen, h1, hnt, hi1, hthr, Bool.not_true,
      Bool.false_eq_true, if_false]
    rw [if_neg (lt_irrefl T)]
  · simp only [Awareness.detect_awareness, hen, h2, hnt, hi2, hthr, Bool.not_true,
      Bool.false_eq_true, if_false]
    rw [if_pos (lt_add_one T)]

/-- C9, witness: threshold 300, non-terminal frontmost app, idle 300 is
NEARBY and idle 301 is AWAY. -/
theorem C9_idle_boundary_witness :
    Awareness.detect_awareness ⟨true, ["Terminal"], 300⟩
        ⟨some "Safari", fun _ => none, some 300⟩ "voxhook" = some .NEARBY
  ∧ Awareness.detect_awareness ⟨true, ["Terminal"], 300⟩
        ⟨some "Safari", fun _ => none, some (300 + 1)⟩ "voxhook" = some .AWAY :=
  C9_idle_boundary ⟨true, ["Terminal"], 300⟩
    ⟨some "Safari", fun _ => none, some 300⟩
    ⟨some "Safari", fun _ => none, some (300 + 1)⟩
    "voxhook" "Safari" 300 rfl rfl rfl rfl (by decide) rfl rfl

/-- C3, counterexample: a notify-handler invocation whose push send fails
(`send_push_notification` returns False) exits with status 1, not 0
(src/hooks/notify/handler.py, lines 399–401). -/
theorem C3_counterexample :
    NotifyHandler.main_exit_code .ok false = 1
  ∧ NotifyHandler.main_exit_code .ok false ≠ 0 := by
  decide

/-- C3, amended: the TTS handler `main` exits 0 on every input — every
internal fault there is swallowed — while the notify handler `main` exits 0
exactly when the push send reports success and exits 1 when it fails, on
each of its three parse paths (normal, JSON error, other exception). -/
theorem C3_amended :
    (∀ inp : TtsHandler.MainInput, TtsHandler.main_exit_code inp = 0)
  ∧ (∀ (p : NotifyHandler.ParseOutcome) (s : Bool),
      NotifyHandler.main_exit_code p s = if s then 0 else 1) := by
  constructor
  · intro inp
    unfold TtsHandler.main_exit_code
    split_ifs <;> rfl
  · intro p s
    cases p <;> rfl

/-- C8, counterexample: an event whose kind is unresolvable ("UnknownEvent")
routes to the hardcoded pair ("Claude Code", "Task completed"), which is not
the loaded mapping document's own global default pair when that default is,
say, ("Ping", "Custom default") — so the cascade's configured global default
is not what an unknown event kind produces. -/
theorem C8_counterexample :
    NotifyHandler.main_notification_data
        (NotifyHandler.safe_hook_event_from_string (some "UnknownEvent"))
        (fun ev => NotifyHandler.ensure_notification_format (.str ev.value))
      = ⟨"Claude Code", "Task completed"⟩
  ∧ NotifyHandler.ensure_notification_format (.pair "Ping" "Custom default")
      = ⟨"Ping", "Custom default"⟩
  ∧ (⟨"Claude Code", "Task completed"⟩ : NotifyHandler.TitleMessage)
      ≠ ⟨"Ping", "Custom default"⟩ := by
  refine ⟨?_, rfl, by decide⟩
  decide

/-- C8, amended: an event whose kind is not resolvable to a known value
never raises and always produces the fixed fallback pair ("Claude Code",
"Task completed"), bypassing the loaded mapping document (and hence its
configured global default) entirely, whatever the cascade would have
returned. -/
theorem C8_amended (v : Option String)
    (cascade : NotifyHandler.HookEvent → NotifyHandler.TitleMessage)
    (h : NotifyHandler.safe_hook_event_from_string v = none) :
    NotifyHandler.main_notification_data
        (NotifyHandler.safe_hook_event_from_string v) cascade
      = ⟨"Claude Code", "Task completed"⟩ := by
  rw [h]
  rfl

/-- C8 amended, witness: the unresolvable event name "UnknownEvent" from
notify/test.py, with an arbitrary cascade. -/
theorem C8_amended_witness :
    NotifyHandler.main_notification_data
        (NotifyHandler.safe_hook_event_from_string (some "UnknownEvent"))
        (fun _ => ⟨"T", "M"⟩)
      = ⟨"Claude Code", "Task completed"⟩ :=
  C8_amended (some "UnknownEvent") (fun _ => ⟨"T", "M"⟩) (by decide)

theorem lookup_eq_none_of_not_mem {β : Type} {l : List (String × β)} {k : String}
    (h : k ∉ l.map Prod.fst) : List.lookup k l = none := by
  induction l with
  | nil => rfl
  | cons p t ih =>
    simp only [List.map_cons, List.mem_cons, not_or] at h
    rw [List.lookup_cons]
    simp [beq_false_of_ne h.1, ih h.2]

theorem lookup_of_mem_nodup {β : Type} {l : List (String × β)} {k : String} {v : β}
    (hnd : (l.map Prod.fst).Nodup) (hm : (k, v) ∈ l) : List.lookup k l = some v := by
  induction l with
  | nil => cases hm
  | cons p t ih =>
    simp only [List.map_cons, List.nodup_cons] at hnd
    rcases List.mem_cons.mp hm with he | ht
    · rw [← he, List.lookup_cons]
      simp
    · have hk : k ∈ t.map Prod.fst := List.mem_map_of_mem Prod.fst ht
      have hne : k ≠ p.1 := fun hkp => hnd.1 (hkp ▸ hk)
      rw [List.lookup_cons]
      simp [beq_false_of_ne hne, ih hnd.2 ht]

theorem lookup_eraseP_self {β : Type} {l : List (String × β)} {k : String}
    (hnd : (l.map Prod.fst).Nodup) :
    List.lookup k (l.eraseP (fun p => p.1 == k)) = none := by
  induction l with
  | nil => rfl
  | cons p t ih =>
    simp only [List.map_cons, List.nodup_cons] at hnd
    by_cases hpk : p.1 = k
    · rw [List.eraseP_cons_of_pos (by simp [hpk])]
      exact lookup_eq_none_of_not_mem (hpk ▸ hnd.1)
    · rw [List.eraseP_cons_of_neg (by simp [hpk])]
      rw [List.lookup_cons]
      simp [beq_false_of_ne (Ne.symm hpk), ih hnd.2]

theorem lookup_map_update {β : Type} {l : List (String × β)} {k : String} {v : β}
    (f : β → β) (hf : List.lookup k l = some v) :
    List.lookup k (l.map (fun p => if p.1 == k then (p.1, f p.2) else p)) = some (f v) := by
  induction l with
  | nil => cases hf
  | cons p t ih =>
    rw [List.lookup_cons] at hf
    by_cases hkp : k = p.1
    · have hb : (p.1 == k) = true := by simp [hkp]
      have hv : p.2 = v := by
        simp [hkp] at hf
        exact hf
      simp [hb, List.lookup_cons, hkp, hv]
    · have hb : (p.1 == k) = false := beq_false_of_ne (Ne.symm hkp)
      have hf' : List.lookup k t = some v := by
        simpa [beq_false_of_ne hkp] using hf
      rw [List.map_cons]
      simp only [hb, Bool.false_eq_true, if_false]
      rw [List.lookup_cons, beq_false_of_ne hkp]
      exact ih hf'

/-- C5: a `lookup` on a hash whose entry's backing file no longer exists
returns miss, deletes the entry from the (rewritten) index, and a subsequent
`lookup` of the same hash is a fresh miss that leaves the index untouched; a
`lookup` on a hash whose backing file exists refreshes `last_access` to the
call time and returns the artifact path. -/
theorem C5_lookup_self_heal (index : CacheManager.Index) (fs : CacheManager.FileSys)
    (now now2 : ℚ) (h : String) (e : CacheManager.CacheEntry)
    (hnd : (index.map Prod.fst).Nodup)
    (hfound : List.lookup h index = some e) :
    (fs e.path = false →
       CacheManager.lookup index fs now h = (none, index.eraseP (fun p => p.1 == h))
     ∧ List.lookup h (CacheManager.lookup index fs now h).2 = none
     ∧ CacheManager.lookup (CacheManager.lookup index fs now h).2 fs now2 h
         = (none, (CacheManager.lookup index fs now h).2))
  ∧ (fs e.path = true →
       (CacheManager.lookup index fs now h).1 = some e.path
     ∧ List.lookup h (CacheManager.lookup index fs now h).2
         = some { e with last_access := now }) := by
  constructor
  · intro hgone
    have hl : CacheManager.lookup index fs now h
        = (none, index.eraseP (fun p => p.1 == h)) := by
      unfold CacheManager.lookup
      rw [hfound]
      simp [hgone]
    have herase : List.lookup h (index.eraseP (fun p => p.1 == h)) = none :=
      lookup_eraseP_self hnd
    refine ⟨hl, ?_, ?_⟩
    · rw [hl]
      exact herase
    · rw [hl]
      unfold CacheManager.lookup
      rw [herase]
  · intro hexists
    have hl : CacheManager.lookup index fs now h
        = (some e.path,
           index.map (fun p =>
             if p.1 == h then (p.1, { p.2 with last_access := now }) else p)) := by
      unfold CacheManager.lookup
      rw [hfound]
      simp [hexists]
    constructor
    · rw [hl]
    · rw [hl]
      exact lookup_map_update (fun x => { x with last_access := now }) hfound

/-- C5, witness: a two-entry index where the backing file of "h1" is gone and
that of "h2" exists; looking up "h1" misses and removes the entry, looking up
"h2" hits and refreshes its access time to 5. -/
theorem C5_lookup_self_heal_witness :
    CacheManager.lookup
        ([("h1", ⟨"p1", "t1", 1, 1⟩), ("h2", ⟨"p2", "t2", 1, 1⟩)] : CacheManager.Index)
        (fun p => p == "p2") 5 "h1"
      = (none, [("h2", ⟨"p2", "t2", 1, 1⟩)])
  ∧ (CacheManager.lookup
        ([("h1", ⟨"p1", "t1", 1, 1⟩), ("h2", ⟨"p2", "t2", 1, 1⟩)] : CacheManager.Index)
        (fun p => p == "p2") 5 "h2").1 = some "p2"
  ∧ List.lookup "h2" (CacheManager.lookup
        ([("h1", ⟨"p1", "t1", 1, 1⟩), ("h2", ⟨"p2", "t2", 1, 1⟩)] : CacheManager.Index)
        (fun p => p == "p2") 5 "h2").2 = some ⟨"p2", "t2", 1, 5⟩ := by
  refine ⟨?_, ?_, ?_⟩
  · exact ((C5_lookup_self_heal
      [("h1", ⟨"p1", "t1", 1, 1⟩), ("h2", ⟨"p2", "t2", 1, 1⟩)]
      (fun p => p == "p2") 5 5 "h1" ⟨"p1", "t1", 1, 1⟩
      (by decide) rfl).1 (by decide)).1.trans (by decide)
  · exact ((C5_lookup_self_heal
      [("h1", ⟨"p1", "t1", 1, 1⟩), ("h2", ⟨"p2", "t2", 1, 1⟩)]
      (fun p => p == "p2") 5 5 "h2" ⟨"p2", "t2", 1, 1⟩
      (by decide) rfl).2 (by decide)).1
  · exact ((C5_lookup_self_heal
      [("h1", ⟨"p1", "t1", 1, 1⟩), ("h2", ⟨"p2", "t2", 1, 1⟩)]
      (fun p => p == "p2") 5 5 "h2" ⟨"p2", "t2", 1, 1⟩
      (by decide) rfl).2 (by decide)).2.trans (by decide)

theorem storeAll_no_evict (max : Nat) (calls : List CacheManager.StoreCall) :
    ∀ idx : CacheManager.Index,
      ((idx.map Prod.fst) ++ calls.map CacheManager.StoreCall.text_hash).Nodup →
      idx.length + calls.length ≤ max →
      calls.foldl
          (fun i c => CacheManager.store i c.now c.text_hash c.text c.audio_path max) idx
        = idx ++ calls.map CacheManager.entryOf := by
  induction calls with
  | nil =>
    intro idx _ _
    simp
  | cons c t ih =>
    intro idx hnd hlen
    have hfresh : c.text_hash ∉ idx.map Prod.fst := by
      intro hmem
      exact (List.nodup_append.mp hnd).2.2 hmem (List.mem_cons_self _ _)
    have hlk : List.lookup c.text_hash idx = none := lookup_eq_none_of_not_mem hfresh
    have hstore : CacheManager.store idx c.now c.text_hash c.text c.audio_path max
        = idx ++ [CacheManager.entryOf c] := by
      unfold CacheManager.store CacheManager.insertEntry
      rw [hlk]
      simp only [Option.isSome_none, Bool.false_eq_true, if_false]
      rw [if_neg]
      · rfl
      · simp only [List.length_append, List.length_cons, List.length_nil] at hlen ⊢
        omega
    rw [List.foldl_cons, hstore, ih (idx ++ [CacheManager.entryOf c]) ?_ ?_]
    · simp
    · simpa [CacheManager.entryOf, List.append_assoc] using hnd
    · simp only [List.length_append, List.length_cons, List.length_singleton,
        List.length_nil] at hlen ⊢
      omega

theorem keyAccess_entryOf (calls : List CacheManager.StoreCall)
    (c : CacheManager.StoreCall)
    (hnd : (calls.map CacheManager.StoreCall.text_hash).Nodup) (hc : c ∈ calls) :
    CacheManager.keyAccess (calls.map CacheManager.entryOf) c.text_hash = c.now := by
  have hkeys : (calls.map CacheManager.entryOf).map Prod.fst
      = calls.map CacheManager.StoreCall.text_hash := by
    simp [List.map_map, CacheManager.entryOf, Function.comp]
  have hmem : (c.text_hash, (⟨c.audio_path, c.text, c.now, c.now⟩ : CacheManager.CacheEntry))
      ∈ calls.map CacheManager.entryOf := List.mem_map_of_mem CacheManager.entryOf hc
  unfold CacheManager.keyAccess
  rw [lookup_of_mem_nodup (by rw [hkeys]; exact hnd) hmem]

theorem victims_eq (n : Nat) (calls : List CacheManager.StoreCall)
    (hlen : calls.length = n + 1)
    (hnd : (calls.map CacheManager.StoreCall.text_hash).Nodup)
    (hmono : (calls.map CacheManager.StoreCall.now).Chain' (· < ·)) :
    CacheManager.evictVictims (calls.map CacheManager.entryOf) n
      = (calls.map CacheManager.StoreCall.text_hash).take 1 := by
  have hkeys : (calls.map CacheManager.entryOf).map Prod.fst
      = calls.map CacheManager.StoreCall.text_hash := by
    simp [List.map_map, CacheManager.entryOf, Function.comp]
  have hpnow : List.Pairwise (fun a b : CacheManager.StoreCall => a.now < b.now) calls :=
    List.pairwise_map.mp (List.chain'_iff_pairwise.mp hmono)
  have hple : List.Pairwise
      (fun a b =>
        (decide (CacheManager.keyAccess (calls.map CacheManager.entryOf) a
          ≤ CacheManager.keyAccess (calls.map CacheManager.entryOf) b)) = true)
      (calls.map CacheManager.StoreCall.text_hash) := by
    rw [List.pairwise_map]
    refine hpnow.imp_of_mem ?_
    intro a b ha hb hab
    simp only [decide_eq_true_eq]
    rw [keyAccess_entryOf calls a hnd ha, keyAccess_entryOf calls b hnd hb]
    exact le_of_lt hab
  have hlenE : (calls.map CacheManager.entryOf).length = n + 1 := by simp [hlen]
  simp only [CacheManager.evictVictims]
  rw [hkeys, List.mergeSort_of_sorted hple, hlenE, Nat.add_sub_cancel_left]

theorem evictIndex_drop_oldest (n : Nat) (c0 : CacheManager.StoreCall)
    (rest : List CacheManager.StoreCall)
    (hlen : rest.length = n)
    (hnd : ((c0 :: rest).map CacheManager.StoreCall.text_hash).Nodup)
    (hmono : ((c0 :: rest).map CacheManager.StoreCall.now).Chain' (· < ·)) :
    CacheManager.evictIndex ((c0 :: rest).map CacheManager.entryOf) n
      = rest.map CacheManager.entryOf := by
  have hv : CacheManager.evictVictims ((c0 :: rest).map CacheManager.entryOf) n
      = [c0.text_hash] := by
    rw [victims_eq n (c0 :: rest) (by simp [hlen]) hnd hmono]
    simp
  have hnotin : c0.text_hash ∉ rest.map CacheManager.StoreCall.text_hash := by
    have hnd2 := hnd
    rw [List.map_cons, List.nodup_cons] at hnd2
    exact hnd2.1
  unfold CacheManager.evictIndex
  rw [hv, List.map_cons, List.filter_cons]
  have hcond : (!([c0.text_hash].contains (CacheManager.entryOf c0).1)) = false := by
    simp [CacheManager.entryOf]
  rw [hcond]
  simp only [Bool.false_eq_true, if_false]
  rw [List.filter_eq_self]
  intro a ha
  rcases List.mem_map.mp ha with ⟨c, hc, rfl⟩
  have hne : c.text_hash ≠ c0.text_hash := by
    intro he
    exact hnotin (he ▸ List.mem_map_of_mem CacheManager.StoreCall.text_hash hc)
  simp [CacheManager.entryOf, hne]

/-- C6: storing maxEntries + 1 entries with pairwise-distinct hashes and
strictly increasing store times into an empty cache leaves exactly
maxEntries entries, the single evicted entry being the one with the oldest
`last_access` (the first stored); and the index `_evict` leaves behind never
depends on which backing-file deletions fail. -/
theorem C6_lru_eviction (n : Nat) (calls : List CacheManager.StoreCall)
    (hn : 0 < n)
    (hlen : calls.length = n + 1)
    (hnd : (calls.map CacheManager.StoreCall.text_hash).Nodup)
    (hmono : (calls.map CacheManager.StoreCall.now).Chain' (· < ·)) :
    (CacheManager.storeAll calls n).length = n
  ∧ (CacheManager.storeAll calls n).map Prod.fst
      = (calls.map CacheManager.StoreCall.text_hash).tail
  ∧ ∀ (index : CacheManager.Index) (m : Nat) (u1 u2 : String → Bool),
      (CacheManager.evict index m u1).1 = (CacheManager.evict index m u2).1 := by
  have hne : calls ≠ [] := by
    intro h
    rw [h] at hlen
    simp at hlen
  obtain ⟨F, z, rfl⟩ : ∃ F z, calls = F ++ [z] :=
    ⟨calls.dropLast, calls.getLast hne, (List.dropLast_append_getLast hne).symm⟩
  have hlenF : F.length = n := by
    simp only [List.length_append, List.length_singleton] at hlen
    omega
  have hndF : (([] : CacheManager.Index).map Prod.fst
      ++ F.map CacheManager.StoreCall.text_hash).Nodup := by
    simp only [List.map_nil, List.nil_append]
    have h2 := hnd
    rw [List.map_append] at h2
    exact (List.nodup_append.mp h2).1
  have hF : List.foldl
      (fun i c => CacheManager.store i c.now c.text_hash c.text c.audio_path n) [] F
      = F.map CacheManager.entryOf := by
    have h3 := storeAll_no_evict n F [] hndF (by simp [hlenF])
    simpa using h3
  have hstoreAll : CacheManager.storeAll (F ++ [z]) n
      = CacheManager.store (F.map CacheManager.entryOf) z.now z.text_hash z.text
          z.audio_path n := by
    unfold CacheManager.storeAll
    rw [List.foldl_append, hF]
    rfl
  have hfreshz : z.text_hash ∉ (F.map CacheManager.entryOf).map Prod.fst := by
    have hkeysF : (F.map CacheManager.entryOf).map Prod.fst
        = F.map CacheManager.StoreCall.text_hash := by
      simp [List.map_map, CacheManager.entryOf, Function.comp]
    rw [hkeysF]
    have h4 := hnd
    rw [List.map_append] at h4
    intro hmem
    exact (List.nodup_append.mp h4).2.2 hmem (by simp)
  have hins : CacheManager.insertEntry (F.map CacheManager.entryOf) z.text_hash
      ⟨z.audio_path, z.text, z.now, z.now⟩ = (F ++ [z]).map CacheManager.entryOf := by
    unfold CacheManager.insertEntry
    rw [lookup_eq_none_of_not_mem hfreshz]
    simp [CacheManager.entryOf]
  have hlenE : ((F ++ [z]).map CacheManager.entryOf).length = n + 1 := by
    simpa using hlen
  have hstore : CacheManager.store (F.map CacheManager.entryOf) z.now z.text_hash z.text
      z.audio_path n = CacheManager.evictIndex ((F ++ [z]).map CacheManager.entryOf) n := by
    unfold CacheManager.store
    rw [hins]
    simp only []
    rw [hlenE, if_pos (Nat.lt_succ_self n)]
  obtain ⟨c0, rest, hcr⟩ : ∃ c0 rest, F ++ [z] = c0 :: rest := by
    cases F with
    | nil => exact ⟨z, [], rfl⟩
    | cons a t => exact ⟨a, t ++ [z], rfl⟩
  have hlenR : rest.length = n := by
    have h5 := hlen
    rw [hcr] at h5
    simpa using h5
  have hndR : ((c0 :: rest).map CacheManager.StoreCall.text_hash).Nodup := by
    rw [← hcr]
    exact hnd
  have hmonoR : ((c0 :: rest).map CacheManager.StoreCall.now).Chain' (· < ·) := by
    rw [← hcr]
    exact hmono
  have hfinal : CacheManager.storeAll (F ++ [z]) n = rest.map CacheManager.entryOf := by
    rw [hstoreAll, hstore, hcr, evictIndex_drop_oldest n c0 rest hlenR hndR hmonoR]
  refine ⟨?_, ?_, fun index m u1 u2 => rfl⟩
  · rw [hfinal]
    simp [hlenR]
  · rw [hfinal, hcr]
    simp [List.map_map, CacheManager.entryOf, Function.comp]

/-- C6, witness: maxEntries 1, two stores with distinct hashes at times 1
and 2; the survivor is the newer entry "h2" and the index left by `_evict`
is the same whether backing-file deletion fails or succeeds. -/
theorem C6_lru_eviction_witness :
    (CacheManager.storeAll [⟨"h1", "t1", "p1", 1⟩, ⟨"h2", "t2", "p2", 2⟩] 1).length = 1
  ∧ (CacheManager.storeAll [⟨"h1", "t1", "p1", 1⟩, ⟨"h2", "t2", "p2", 2⟩] 1).map Prod.fst
      = ["h2"]
  ∧ (CacheManager.evict [("h1", ⟨"p1", "t1", 1, 1⟩)] 0 (fun _ => true)).1
      = (CacheManager.evict [("h1", ⟨"p1", "t1", 1, 1⟩)] 0 (fun _ => false)).1 := by
  have h := C6_lru_eviction 1 [⟨"h1", "t1", "p1", 1⟩, ⟨"h2", "t2", "p2", 2⟩]
    (by decide) (by decide) (by decide) (by simp [List.chain'_pair, one_lt_two])
  exact ⟨h.1, h.2.1.trans (by decide),
    h.2.2 [("h1", ⟨"p1", "t1", 1, 1⟩)] 0 (fun _ => true) (fun _ => false)⟩

namespace AudioQueue

theorem inv_step {seq1 seq2 : List String} {s t : SysState}
    (hinv : Inv seq1 seq2 s) (hst : Step seq1 seq2 s t) : Inv seq1 seq2 t := by
  obtain ⟨p1, p2, lk, tr⟩ := s
  cases hst with
  | acquire1 h hl =>
    simp only at h hl
    subst h
    subst hl
    cases p2 with
    | waiting =>
      obtain ⟨-, h2⟩ := hinv
      subst h2
      exact ⟨rfl, [], by simp [tag]⟩
    | playing r2 =>
      obtain ⟨hlk, -⟩ := hinv
      simp at hlk
    | finished =>
      obtain ⟨-, h2⟩ := hinv
      subst h2
      exact ⟨rfl, [], by simp [tag]⟩
  | play1 f rest h =>
    simp only at h
    subst h
    cases p2 with
    | waiting =>
      obtain ⟨h1, p, hseq, htr⟩ := hinv
      subst h1
      subst htr
      refine ⟨rfl, p ++ [f], ?_, ?_⟩
      · rw [hseq]
        simp
      · simp [tag]
    | playing r2 => exact hinv.elim
    | finished =>
      obtain ⟨h1, p, hseq, htr⟩ := hinv
      subst h1
      subst htr
      refine ⟨rfl, p ++ [f], ?_, ?_⟩
      · rw [hseq]
        simp
      · simp [tag]
  | release1 h =>
    simp only at h
    subst h
    cases p2 with
    | waiting =>
      obtain ⟨-, p, hseq, htr⟩ := hinv
      subst htr
      rw [List.append_nil] at hseq
      exact ⟨rfl, by rw [hseq]⟩
    | playing r2 => exact hinv.elim
    | finished =>
      obtain ⟨-, p, hseq, htr⟩ := hinv
      subst htr
      rw [List.append_nil] at hseq
      exact ⟨rfl, Or.inr (by rw [hseq])⟩
  | acquire2 h hl =>
    simp only at h hl
    subst h
    subst hl
    cases p1 with
    | waiting =>
      obtain ⟨-, h2⟩ := hinv
      subst h2
      exact ⟨rfl, [], by simp [tag]⟩
    | playing r1 =>
      obtain ⟨hlk, -⟩ := hinv
      simp at hlk
    | finished =>
      obtain ⟨-, h2⟩ := hinv
      subst h2
      exact ⟨rfl, [], by simp [tag]⟩
  | play2 f rest h =>
    simp only at h
    subst h
    cases p1 with
    | waiting =>
      obtain ⟨h1, p, hseq, htr⟩ := hinv
      subst h1
      subst htr
      refine ⟨rfl, p ++ [f], ?_, ?_⟩
      · rw [hseq]
        simp
      · simp [tag]
    | playing r1 => exact hinv.elim
    | finished =>
      obtain ⟨h1, p, hseq, htr⟩ := hinv
      subst h1
      subst htr
      refine ⟨rfl, p ++ [f], ?_, ?_⟩
      · rw [hseq]
        simp
      · simp [tag]
  | release2 h =>
    simp only at h
    subst h
    cases p1 with
    | waiting =>
      obtain ⟨-, p, hseq, htr⟩ := hinv
      subst htr
      rw [List.append_nil] at hseq
      exact ⟨rfl, by rw [hseq]⟩
    | playing r1 => exact hinv.elim
    | finished =>
      obtain ⟨-, p, hseq, htr⟩ := hinv
      subst htr
      rw [List.append_nil] at hseq
      exact ⟨rfl, Or.inl (by rw [hseq])⟩

theorem inv_of_reachable {seq1 seq2 : List String} {s : SysState}
    (h : Reachable seq1 seq2 s) : Inv seq1 seq2 s := by
  induction h with
  | refl => exact ⟨rfl, rfl⟩
  | tail hr hstep ih => exact inv_step ih hstep

end AudioQueue

/-- C1: under the flock interleaving semantics, in every reachable state at
most one invocation is inside its `with audio_lock()` block (so at most one
invocation's audio plays at any instant), and once both `play_sequence`
invocations have finished, the observed playback order is one whole sequence
followed by the other — for [A,B] and [C,D], either A,B,C,D or C,D,A,B,
never an interleaving. -/
theorem C1_playback_serialized (seq1 seq2 : List String) (s : AudioQueue.SysState)
    (h : AudioQueue.Reachable seq1 seq2 s) :
    ¬(s.phase1.isPlaying = true ∧ s.phase2.isPlaying = true)
  ∧ (s.phase1 = .finished → s.phase2 = .finished →
      s.trace = AudioQueue.tag false seq1 ++ AudioQueue.tag true seq2 ∨
      s.trace = AudioQueue.tag true seq2 ++ AudioQueue.tag false seq1) := by
  have hinv := AudioQueue.inv_of_reachable h
  obtain ⟨p1, p2, lk, tr⟩ := s
  constructor
  · rintro ⟨hp1, hp2⟩
    cases p1 <;> cases p2 <;> simp [AudioQueue.ProcPhase.isPlaying] at hp1 hp2
    exact hinv
  · intro h1 h2
    simp only at h1 h2
    subst h1
    subst h2
    exact hinv.2

/-- C1, witness: the schedule in which the first invocation plays [A,B]
whole and then the second plays [C,D] whole is reachable, and its final
trace is one of the two permitted block orders. -/
theorem C1_playback_serialized_witness :
    ([(false, "A"), (false, "B"), (true, "C"), (true, "D")] : List (Bool × String))
      = AudioQueue.tag false ["A", "B"] ++ AudioQueue.tag true ["C", "D"]
  ∨ ([(false, "A"), (false, "B"), (true, "C"), (true, "D")] : List (Bool × String))
      = AudioQueue.tag true ["C", "D"] ++ AudioQueue.tag false ["A", "B"] := by
  have h1 : AudioQueue.Step ["A", "B"] ["C", "D"] AudioQueue.init
      ⟨.playing ["A", "B"], .waiting, some false, []⟩ :=
    AudioQueue.Step.acquire1 AudioQueue.init rfl rfl
  have h2 : AudioQueue.Step ["A", "B"] ["C", "D"]
      ⟨.playing ["A", "B"], .waiting, some false, []⟩
      ⟨.playing ["B"], .waiting, some false, [(false, "A")]⟩ :=
    AudioQueue.Step.play1 _ "A" ["B"] rfl
  have h3 : AudioQueue.Step ["A", "B"] ["C", "D"]
      ⟨.playing ["B"], .waiting, some false, [(false, "A")]⟩
      ⟨.playing [], .waiting, some false, [(false, "A"), (false, "B")]⟩ :=
    AudioQueue.Step.play1 _ "B" [] rfl
  have h4 : AudioQueue.Step ["A", "B"] ["C", "D"]
      ⟨.playing [], .waiting, some false, [(false, "A"), (false, "B")]⟩
      ⟨.finished, .waiting, none, [(false, "A"), (false, "B")]⟩ :=
    AudioQueue.Step.release1 _ rfl
  have h5 : AudioQueue.Step ["A", "B"] ["C", "D"]
      ⟨.finished, .waiting, none, [(false, "A"), (false, "B")]⟩
      ⟨.finished, .playing ["C", "D"], some true, [(false, "A"), (false, "B")]⟩ :=
    AudioQueue.Step.acquire2 _ rfl rfl
  have h6 : AudioQueue.Step ["A", "B"] ["C", "D"]
      ⟨.finished, .playing ["C", "D"], some true, [(false, "A"), (false, "B")]⟩
      ⟨.finished, .playing ["D"], some true, [(false, "A"), (false, "B"), (true, "C")]⟩ :=
    AudioQueue.Step.play2 _ "C" ["D"] rfl
  have h7 : AudioQueue.Step ["A", "B"] ["C", "D"]
      ⟨.finished, .playing ["D"], some true, [(false, "A"), (false, "B"), (true, "C")]⟩
      ⟨.finished, .playing [], some true,
        [(false, "A"), (false, "B"), (true, "C"), (true, "D")]⟩ :=
    AudioQueue.Step.play2 _ "D" [] rfl
  have h8 : AudioQueue.Step ["A", "B"] ["C", "D"]
      ⟨.finished, .playing [], some true,
        [(false, "A"), (false, "B"), (true, "C"), (true, "D")]⟩
      ⟨.finished, .finished, none,
        [(false, "A"), (false, "B"), (true, "C"), (true, "D")]⟩ :=
    AudioQueue.Step.release2 _ rfl
  have hreach : AudioQueue.Reachable ["A", "B"] ["C", "D"]
      ⟨.finished, .finished, none,
        [(false, "A"), (false, "B"), (true, "C"), (true, "D")]⟩ :=
    ((((((((Relation.ReflTransGen.refl).tail h1).tail h2).tail h3).tail
      h4).tail h5).tail h6).tail h7).tail h8
  exact (C1_playback_serialized ["A", "B"] ["C", "D"] _ hreach).2 rfl rfl

